import Mathlib

/-
Verification of the jira-plugin request dispatch pipeline.

Shallow embedding of:
 - credentials/credentials.go  (src/unnamed/part_000): the per-tenant credential store;
 - actions/issues/handlers.go and handlers.go: topic routing and dispatch;
 - client/jira_client.go (embedded in src/jira-plugin/README.md): the API
   adapter error-message synthesis;
 - actions/issues/actions.go (embedded in src/jira-plugin/README.md): the
   issues.create and issues.comment business functions.

Go dynamic values (map[string]any decoded from JSON by sonic.Unmarshal) are
modelled by the inductive JValue below; Go maps are modelled as association
lists with first-occurrence lookup, which coincides with Go map semantics as
long as key lists are duplicate-free (JSON objects and Go maps never hold a
duplicate key).  Go map iteration order is unspecified; the model iterates
association lists in list order, and every theorem below about merged maps is
stated through the order-insensitive lookup aget.
-/

/-! ## Dynamic JSON-like values -/

/-- A decoded JSON value as produced by sonic.Unmarshal into map[string]any.
JSON numbers are abstracted as integers (no claim below depends on the
numeric representation). -/
inductive JValue where
  | null
  | str (s : String)
  | num (n : Int)
  | bool (b : Bool)
  | obj (fields : List (String × JValue))

/-- A Go map[string]any, modelled as an association list. -/
abbrev JMap := List (String × JValue)

/-- Association-list lookup: the value at the first occurrence of the key,
mirroring Go map indexing (m[k]). -/
def aget {α : Type} : List (String × α) → String → Option α
  | [], _ => none
  | p :: rest, k => if p.1 = k then some p.2 else aget rest k

/-- Association-list update: replaces the first binding of the key in place,
or appends a new binding, mirroring Go map assignment (m[k] = v). -/
def aset {α : Type} : List (String × α) → String → α → List (String × α)
  | [], k, v => [(k, v)]
  | p :: rest, k, v => if p.1 = k then (k, v) :: rest else p :: aset rest k v

/-- A well-formed map has no duplicate keys (always true of decoded JSON
objects and of Go maps). -/
def keysNodup {α : Type} (m : List (String × α)) : Prop :=
  (m.map Prod.fst).Nodup

/-- Go type assertion body[k].(string) with discarded ok flag: yields the
string value, or the empty string when the key is absent or not a string. -/
def getString (m : JMap) (k : String) : String :=
  match aget m k with
  | some (.str s) => s
  | _ => ""

/-- Go type assertion body[k].(map[string]any) with discarded ok flag,
followed by the nil-to-empty-map normalization both handlers perform:
yields the object fields, or the empty map when absent or not an object. -/
def getObjFields (m : JMap) (k : String) : JMap :=
  match aget m k with
  | some (.obj f) => f
  | _ => []

/-- The guard (value != nil && value != "") both handlers and the client use
before forwarding a dynamic field: false exactly for JSON null and for the
empty string. -/
def jvalKeep : JValue → Bool
  | .null => false
  | .str s => s != ""
  | _ => true

/-- Fold a list of bindings into a map, assigning each binding that passes
the filter cond; this is the shape of every (for key, value := range m)
merge loop in the handlers and the client. -/
def condSet (cond : String × JValue → Bool) (init : JMap) (l : JMap) : JMap :=
  l.foldl (fun acc p => if cond p then aset acc p.1 p.2 else acc) init

/-- The merge loop of CreateIssueHandler and AddCommentHandler: every
top-level body field whose key is not a known field name and whose value
passes jvalKeep is assigned into additionalFields. -/
def mergeExtras (body : JMap) (known : List String) (af : JMap) : JMap :=
  condSet (fun p => !known.contains p.1 && jvalKeep p.2) af body

/-! ## Credential Store (credentials/credentials.go) -/

/-- JiraCredentials: the stored per-tenant secret bundle. -/
structure JiraCredentials where
  instanceUrl : String
  email : String
  apiToken : String
deriving DecidableEq

/-- The decoded jira_credentials.json collection: tenant key to bundle. -/
abbrev CredMap := List (String × JiraCredentials)

/-- The ways loadAllCredentials can fail: os.ReadFile not-exist, any other
read failure, or a json.Unmarshal failure. -/
inductive LoadErr where
  | notExist
  | readErr
  | parseErr
deriving DecidableEq

/-- The state of the credentials file on disk. -/
inductive FileState where
  | missing
  | unreadable
  | corrupt
  | stored (m : CredMap)
deriving DecidableEq

/-- loadAllCredentials: reads and unmarshals the whole credentials file. -/
def loadAllCredentials : FileState → Except LoadErr CredMap
  | .missing => .error .notExist
  | .unreadable => .error .readErr
  | .corrupt => .error .parseErr
  | .stored m => .ok m

/-- The key normalization both SaveCredentials and GetCredentials apply:
an empty spaceID is replaced by the reserved key "default". -/
def normalizeSpaceKey (spaceID : String) : String :=
  if spaceID = "" then "default" else spaceID

/-- SaveCredentials failure: the existing collection could not be loaded for
a reason other than file-not-exist (read failure or parse failure).  The
marshal of map[string]JiraCredentials cannot fail in Go; a WriteFile failure
returns an error without producing a new state and is not reached by any
claim below (all save claims condition on success), so the model writes
successfully. -/
inductive SaveErr where
  | loadFailed
deriving DecidableEq

/-- SaveCredentials: load the whole collection (tolerating only the
not-exist error, in which case the collection starts empty), replace the
entry under the normalized key wholesale, and write the whole collection
back. -/
def SaveCredentials (fs : FileState) (spaceID : String) (creds : JiraCredentials) :
    Except SaveErr FileState :=
  match loadAllCredentials fs with
  | .error e =>
    if e = .notExist then .ok (.stored (aset ([] : CredMap) (normalizeSpaceKey spaceID) creds))
    else .error .loadFailed
  | .ok m => .ok (.stored (aset m (normalizeSpaceKey spaceID) creds))

/-- GetCredentials failure: either the underlying load failed (every load
error propagates unchanged), or the normalized key is absent. -/
inductive GetErr where
  | load (e : LoadErr)
  | notFound (spaceKey : String)
deriving DecidableEq

/-- GetCredentials: load the whole collection and return the bundle under
the normalized key. -/
def GetCredentials (fs : FileState) (spaceID : String) : Except GetErr JiraCredentials :=
  match loadAllCredentials fs with
  | .error e => .error (.load e)
  | .ok m =>
    match aget m (normalizeSpaceKey spaceID) with
    | some c => .ok c
    | none => .error (.notFound (normalizeSpaceKey spaceID))

/-- HasCredentials: boolean form of GetCredentials; every error (including
missing or unreadable store) is suppressed into false.  The Go code checks
err == nil && creds != nil, and creds is never nil when err is nil. -/
def HasCredentials (fs : FileState) (spaceID : String) : Bool :=
  match GetCredentials fs spaceID with
  | .ok _ => true
  | .error _ => false

/-- GetAllSpaces: returns the pair (list of keys, error) exactly as the Go
function returns ([]string, error): on any load failure it returns the empty
slice TOGETHER WITH the load error. -/
def GetAllSpaces (fs : FileState) : List String × Option LoadErr :=
  match loadAllCredentials fs with
  | .error e => ([], some e)
  | .ok m => (m.map Prod.fst, none)

/-- A history of SaveCredentials calls starting from a fresh (missing)
store; a failing save leaves the state unchanged. -/
def runSaves (ops : List (String × JiraCredentials)) : FileState :=
  ops.foldl
    (fun fs op =>
      match SaveCredentials fs op.1 op.2 with
      | .ok fs2 => fs2
      | .error _ => fs)
    .missing

/-! ## Topic Router (extractSpaceIdFromSubject) -/

/-- Go strings.Split(s, ".") on the character list: splits at every dot;
the empty input yields one empty segment. -/
def splitDot (cs : List Char) : List (List Char) :=
  match cs with
  | [] => [[]]
  | c :: rest =>
    let r := splitDot rest
    if c = '.' then [] :: r
    else
      match r with
      | [] => [[c]]
      | h :: t => (c :: h) :: t

/-- Go strings.Split(subject, "."). -/
def splitSubject (s : String) : List String :=
  (splitDot s.data).map String.mk

/-- The scan loop of extractSpaceIdFromSubject: return the segment after the
first "bin" that has a successor; a trailing "bin" (i+1 not < len) does not
match and the loop falls through to the empty string. -/
def findAfterBin : List String → String
  | [] => ""
  | [_] => ""
  | p :: q :: rest => if p = "bin" then q else findAfterBin (q :: rest)

/-- extractSpaceIdFromSubject: split the NATS subject on dots and return the
segment immediately after the first "bin" marker, or "" when the marker is
absent or last.  Identical function bodies appear in handlers.go and in
actions/issues/handlers.go. -/
def extractSpaceIdFromSubject (subject : String) : String :=
  findAfterBin (splitSubject subject)

/-! ## API Adapter error normalization (client/jira_client.go) -/

/-- Go strings.Join. -/
def joinSep (sep : String) : List String → String
  | [] => ""
  | [x] => x
  | x :: rest => x ++ sep ++ joinSep sep rest

/-- The shared prefix of every adapter error, from
fmt.Errorf("Jira API error (status %d): %s", ...). -/
def jiraErrorPrefix (status : Nat) : String :=
  "Jira API error (status " ++ Nat.repr status ++ "): "

/-- The jiraError struct the create, delete and comment operations try to
unmarshal an error body into: an errorMessages list and an errors
field-to-message map.  Go map iteration order over the errors map is
unspecified; the model fixes list order, which is immaterial to every
theorem below (the concrete error body at issue has a single field). -/
structure JiraErrorBody where
  errorMessages : List String
  errors : List (String × String)

/-- The error-message synthesis shared verbatim (up to the label string) by
CreateIssue, DeleteIssue and AddComment on a non-success status: join the
parsed errorMessages, append the labelled field errors joined by "; ", join
everything with ". " after the status prefix; fall back to the raw response
body when the unmarshal failed or produced no parts.  The parsed argument is
the sonic.Unmarshal oracle: some when the raw body unmarshals into the
jiraError struct, none otherwise. -/
def parsedErrorMessage (label : String) (status : Nat) (rawBody : String)
    (parsed : Option JiraErrorBody) : String :=
  match parsed with
  | some je =>
    let fieldParts : List String :=
      if je.errors.length > 0 then
        let fieldErrors := je.errors.map (fun p => p.1 ++ ": " ++ p.2)
        if fieldErrors.length > 0 then [label ++ joinSep "; " fieldErrors] else []
      else []
    let errorParts := je.errorMessages ++ fieldParts
    if errorParts.length > 0 then jiraErrorPrefix status ++ joinSep ". " errorParts
    else jiraErrorPrefix status ++ rawBody
  | none => jiraErrorPrefix status ++ rawBody

/-- CreateIssue error message (status other than 201 Created); label
"Missing or invalid fields: ". -/
def createIssueErrorMessage (status : Nat) (rawBody : String)
    (parsed : Option JiraErrorBody) : String :=
  parsedErrorMessage "Missing or invalid fields: " status rawBody parsed

/-- DeleteIssue error message (status other than 204 or 200); label
"Errors: ". -/
def deleteIssueErrorMessage (status : Nat) (rawBody : String)
    (parsed : Option JiraErrorBody) : String :=
  parsedErrorMessage "Errors: " status rawBody parsed

/-- AddComment error message (status other than 201); label "Errors: ". -/
def addCommentErrorMessage (status : Nat) (rawBody : String)
    (parsed : Option JiraErrorBody) : String :=
  parsedErrorMessage "Errors: " status rawBody parsed

/-- ListProjects error message (status other than 200): the raw response
body is used directly; this operation never attempts to parse the
structured error body. -/
def listProjectsErrorMessage (status : Nat) (rawBody : String) : String :=
  jiraErrorPrefix status ++ rawBody

/-- Substring test used to state the two-substring property of claim C5. -/
def isInfixCheck (needle hay : List Char) : Bool :=
  match hay with
  | [] => needle.isEmpty
  | _ :: t => needle.isPrefixOf hay || isInfixCheck needle t

/-- Whether needle occurs contiguously inside hay. -/
def containsSubstr (hay needle : String) : Bool :=
  isInfixCheck needle.data hay.data

/-! ## issues.create and issues.comment business functions
(actions/issues/actions.go, embedded in src/jira-plugin/README.md) -/

/-- The known top-level field names of issues.create. -/
def createKnownFields : List String :=
  ["projectKey", "issueType", "summary", "description", "additionalFields"]

/-- The known top-level field names of issues.comment. -/
def commentKnownFields : List String :=
  ["issueKey", "commentBody", "visibility", "additionalFields"]

/-- The validation_error result mapping each handler returns on a missing
required field. -/
def validationError (message : String) : JMap :=
  [("error", .str "validation_error"), ("message", .str message)]

/-- Outcome of the issues.create business function, up to the remote call:
either a result mapping returned without contacting the remote API, or the
fields object of the POST /rest/api/2/issue request it proceeds to make. -/
inductive CreateStep where
  | reply (result : JMap)
  | callApi (fields : JMap)

/-- The fields object CreateIssue (client) builds for the remote request:
project key, summary and issue type, the description when non-empty, then
every additionalFields entry passing jvalKeep. -/
def createIssueFields (projectKey issueType summary description : String)
    (additionalFields : JMap) : JMap :=
  let fields : JMap :=
    [("project", .obj [("key", .str projectKey)]),
     ("summary", .str summary),
     ("issuetype", .obj [("name", .str issueType)])]
  let fields := if description != "" then aset fields "description" (.str description) else fields
  condSet (fun p => jvalKeep p.2) fields additionalFields

/-- The issues.create business function (CreateIssueHandler inner closure):
extract the core fields, merge unknown keepable top-level fields into
additionalFields, validate projectKey, then issueType, then summary in that
order, and on success call the client with the built fields. -/
def createIssueAction (body : JMap) : CreateStep :=
  let projectKey := getString body "projectKey"
  let issueType := getString body "issueType"
  let summary := getString body "summary"
  let description := getString body "description"
  let additionalFields := mergeExtras body createKnownFields (getObjFields body "additionalFields")
  if projectKey = "" then .reply (validationError "Project key is required")
  else if issueType = "" then .reply (validationError "Issue type is required")
  else if summary = "" then .reply (validationError "Summary is required")
  else .callApi (createIssueFields projectKey issueType summary description additionalFields)

/-- Outcome of the issues.comment business function, up to the remote call. -/
inductive CommentStep where
  | reply (result : JMap)
  | callApi (issueKey : String) (requestBody : JMap)

/-- The request body AddComment (client) builds: the comment text under
"body", the visibility object when non-empty, then every additionalFields
entry passing jvalKeep. -/
def addCommentRequestBody (commentBody : String) (visibility : JMap)
    (additionalFields : JMap) : JMap :=
  let rb : JMap := [("body", .str commentBody)]
  let rb := if visibility.length > 0 then aset rb "visibility" (.obj visibility) else rb
  condSet (fun p => jvalKeep p.2) rb additionalFields

/-- The issues.comment business function (AddCommentHandler inner closure). -/
def addCommentAction (body : JMap) : CommentStep :=
  let issueKey := getString body "issueKey"
  let commentBody := getString body "commentBody"
  let visibility := getObjFields body "visibility"
  let additionalFields := mergeExtras body commentKnownFields (getObjFields body "additionalFields")
  if issueKey = "" then .reply (validationError "Issue key or ID is required")
  else if commentBody = "" then .reply (validationError "Comment body is required")
  else .callApi issueKey (addCommentRequestBody commentBody visibility additionalFields)

/-! ## Dispatch pipeline (handleActionWithCredentialsCheckSync) -/

/-- The inbound NATS payload as the dispatcher sees it: absent (len 0),
failing to unmarshal into ActionRequestContent, or an envelope whose Body
field is nil or a decoded map. -/
inductive MsgData where
  | empty
  | malformed
  | withBody (b : Option JMap)

/-- Observable events of one dispatch, in execution order.  respond is
msg.Respond on the reply address; reject is sdkv2.RejectWithBody; storeJob
is plugin.StoreEntityIdForJob (the job-handle-to-tenant association); sleep
is the fixed one-second delay; execute marks the invocation of the action
business function (the only place the API Adapter can ever be called from);
publishDone is plugin.Done (the completion event under the job handle). -/
inductive Event where
  | respond (payload : JMap)
  | reject (payload : JMap)
  | storeJob (jobId : String) (tenant : String)
  | sleep
  | execute
  | publishDone (jobId : String) (result : JMap)

/-- The invalid-request reply of the direct-protocol dispatcher
(actions/issues/handlers.go in src). -/
def invalidRequestReplySync : JMap :=
  [("error", .str "Invalid request data"), ("message", .str "Failed to parse request")]

/-- The invalid-request rejection of the handshake-protocol dispatcher
(embedded in src/jira-plugin/README.md). -/
def invalidRequestReplyHandshake : JMap :=
  [("error", .str "invalid_request"), ("message", .str "Failed to parse request")]

/-- The credentials-not-configured message, with its empty-tenant variant. -/
def credsNotConfiguredMsg (spaceID : String) : String :=
  if spaceID = "" then
    "Jira credentials not configured. Please complete the onboarding process first."
  else
    "Jira credentials not configured for space \x27" ++ spaceID ++
      "\x27. Please complete the onboarding process first."

/-- The credentials-not-configured error payload: error tag, message, the
action name and the tenant (space) id. -/
def credsNotConfiguredReply (actionName spaceID : String) : JMap :=
  [("error", .str "credentials_not_configured"),
   ("message", .str (credsNotConfiguredMsg spaceID)),
   ("action", .str actionName),
   ("spaceId", .str spaceID)]

/-- The credentials_error payload (GetCredentials failed after the existence
check; unreachable in this pure model, where HasCredentials true implies
GetCredentials succeeds, but kept for structural fidelity).  The Go message
interpolates the underlying error with %v, abstracted away here. -/
def credsErrorReply (_e : GetErr) : JMap :=
  [("error", .str "credentials_error"),
   ("message", .str "Failed to retrieve credentials")]

/-- The decoded body mapping: requestData.Body when present, else empty. -/
def bodyOf : MsgData → JMap
  | .withBody (some b) => b
  | _ => []

/-- Whether sonic.Unmarshal of the inbound payload failed. -/
def MsgData.isMalformed : MsgData → Bool
  | .malformed => true
  | _ => false

/-- The direct-protocol dispatcher (actions/issues/handlers.go in src):
extract the tenant from the subject, decode the body, gate on
HasCredentials, fetch the bundle, run the business function and respond
once with its result.  The marshals of the fixed-shape payloads cannot fail
in Go and are modelled as total. -/
def dispatchSync (fs : FileState) (subject : String) (data : MsgData)
    (actionName : String) (actionFunc : JiraCredentials → JMap → JMap) : List Event :=
  let spaceID := extractSpaceIdFromSubject subject
  if data.isMalformed then [.respond invalidRequestReplySync]
  else
    if HasCredentials fs spaceID then
      match GetCredentials fs spaceID with
      | .error e => [.respond (credsErrorReply e)]
      | .ok creds => [.execute, .respond (actionFunc creds (bodyOf data))]
    else [.respond (credsNotConfiguredReply actionName spaceID)]

/-- The handshake acknowledgment payload: the freshly generated job handle
and progress 0. -/
def ackReply (jobID : String) : JMap :=
  [("jobId", .str jobID), ("progress", .num 0)]

/-- The handshake-protocol dispatcher (README-embedded variant of
handleActionWithCredentialsCheckSync): after the same credential gate, it
generates a job id (modelled as the jobID oracle argument for uuid.New),
records the job-to-tenant association, replies with the acknowledgment,
sleeps one second, executes the business function and publishes the
completion event under the job handle.  The plugin instance is modelled as
present (a nil instance only skips storeJob and publishDone). -/
def dispatchHandshake (fs : FileState) (subject : String) (data : MsgData)
    (actionName : String) (jobID : String)
    (actionFunc : JiraCredentials → JMap → JMap) : List Event :=
  let spaceID := extractSpaceIdFromSubject subject
  if data.isMalformed then [.reject invalidRequestReplyHandshake]
  else
    if HasCredentials fs spaceID then
      match GetCredentials fs spaceID with
      | .error e => [.reject (credsErrorReply e)]
      | .ok creds =>
        [.storeJob jobID spaceID,
         .respond (ackReply jobID),
         .sleep,
         .execute,
         .publishDone jobID (actionFunc creds (bodyOf data))]
    else [.reject (credsNotConfiguredReply actionName spaceID)]

/-! ## Association-list lemmas -/

theorem aget_aset_self {α : Type} (m : List (String × α)) (k : String) (v : α) :
    aget (aset m k v) k = some v := by
  induction m with
  | nil => simp [aset, aget]
  | cons p rest ih =>
    by_cases h : p.1 = k
    · simp [aset, h, aget]
    · simp [aset, h, aget, ih]

theorem aget_aset_other {α : Type} (m : List (String × α)) (k k2 : String) (v : α)
    (h : k2 ≠ k) : aget (aset m k v) k2 = aget m k2 := by
  induction m with
  | nil => simp [aset, aget, Ne.symm h]
  | cons p rest ih =>
    by_cases hp : p.1 = k
    · simp [aset, hp, aget, Ne.symm h]
    · simp [aset, hp, aget, ih]

theorem aget_mem {α : Type} {m : List (String × α)} {k : String} {v : α}
    (h : aget m k = some v) : (k, v) ∈ m := by
  induction m with
  | nil => simp [aget] at h
  | cons p rest ih =>
    by_cases hp : p.1 = k
    · simp [aget, hp] at h
      cases p
      simp_all
    · simp [aget, hp] at h
      exact List.mem_cons_of_mem _ (ih h)

theorem aget_ne_none_iff {α : Type} (m : List (String × α)) (k : String) :
    aget m k ≠ none ↔ k ∈ m.map Prod.fst := by
  induction m with
  | nil => simp [aget]
  | cons p rest ih =>
    rw [List.map_cons, List.mem_cons]
    by_cases hp : p.1 = k
    · simp [aget, hp]
    · rw [show aget (p :: rest) k = aget rest k from by simp [aget, hp], ih]
      constructor
      · exact fun hk => Or.inr hk
      · rintro (hk | hk)
        · exact absurd hk.symm hp
        · exact hk

theorem aset_cons_eq {α : Type} {p : String × α} {rest : List (String × α)}
    {k : String} {v : α} (hp : p.1 = k) : aset (p :: rest) k v = (k, v) :: rest := by
  simp [aset, hp]

theorem aset_cons_ne {α : Type} {p : String × α} {rest : List (String × α)}
    {k : String} {v : α} (hp : p.1 ≠ k) : aset (p :: rest) k v = p :: aset rest k v := by
  simp [aset, hp]

theorem mem_keys_aset {α : Type} {m : List (String × α)} {k k2 : String} {v : α}
    (h : k2 ∈ (aset m k v).map Prod.fst) : k2 ∈ m.map Prod.fst ∨ k2 = k := by
  induction m with
  | nil =>
    rw [show aset ([] : List (String × α)) k v = [(k, v)] from rfl] at h
    simp at h
    exact Or.inr h
  | cons p rest ih =>
    by_cases hp : p.1 = k
    · rw [aset_cons_eq hp, List.map_cons, List.mem_cons] at h
      rcases h with h | h
      · exact Or.inr h
      · exact Or.inl (by rw [List.map_cons, List.mem_cons]; exact Or.inr h)
    · rw [aset_cons_ne hp, List.map_cons, List.mem_cons] at h
      rcases h with h | h
      · exact Or.inl (by rw [List.map_cons, List.mem_cons]; exact Or.inl h)
      · rcases ih h with h2 | h2
        · exact Or.inl (by rw [List.map_cons, List.mem_cons]; exact Or.inr h2)
        · exact Or.inr h2

theorem keysNodup_aset {α : Type} {m : List (String × α)} (k : String) (v : α)
    (h : keysNodup m) : keysNodup (aset m k v) := by
  induction m with
  | nil => simp [aset, keysNodup]
  | cons p rest ih =>
    rw [keysNodup, List.map_cons, List.nodup_cons] at h
    by_cases hp : p.1 = k
    · rw [keysNodup, aset_cons_eq hp, List.map_cons, List.nodup_cons]
      exact ⟨hp ▸ h.1, h.2⟩
    · rw [keysNodup, aset_cons_ne hp, List.map_cons, List.nodup_cons]
      refine ⟨fun hmem => ?_, ih h.2⟩
      rcases mem_keys_aset hmem with h2 | h2
      · exact h.1 h2
      · exact hp h2

theorem condSet_cons (cond : String × JValue → Bool) (init : JMap) (p : String × JValue)
    (rest : JMap) :
    condSet cond init (p :: rest) =
      condSet cond (if cond p then aset init p.1 p.2 else init) rest := rfl

theorem aget_condSet_of_not_mem_keys (cond : String × JValue → Bool) {l : JMap}
    (init : JMap) {k : String} (h : k ∉ l.map Prod.fst) :
    aget (condSet cond init l) k = aget init k := by
  induction l generalizing init with
  | nil => rfl
  | cons p rest ih =>
    simp only [List.map_cons, List.mem_cons] at h
    push_neg at h
    rw [condSet_cons, ih _ h.2]
    by_cases hc : cond p
    · rw [if_pos hc, aget_aset_other _ _ _ _ h.1]
    · rw [if_neg hc]

theorem aget_condSet_of_mem (cond : String × JValue → Bool) {l : JMap}
    (init : JMap) {k : String} {v : JValue} (hnd : keysNodup l) (hmem : (k, v) ∈ l)
    (hc : cond (k, v) = true) : aget (condSet cond init l) k = some v := by
  induction l generalizing init with
  | nil => cases hmem
  | cons p rest ih =>
    rw [keysNodup, List.map_cons, List.nodup_cons] at hnd
    rcases List.mem_cons.mp hmem with h | h
    · subst h
      rw [condSet_cons, if_pos hc]
      rw [aget_condSet_of_not_mem_keys cond _ hnd.1]
      exact aget_aset_self _ _ _
    · rw [condSet_cons]
      exact ih _ hnd.2 h

theorem keysNodup_condSet (cond : String × JValue → Bool) {init : JMap} (l : JMap)
    (h : keysNodup init) : keysNodup (condSet cond init l) := by
  induction l generalizing init with
  | nil => exact h
  | cons p rest ih =>
    rw [condSet_cons]
    by_cases hc : cond p
    · rw [if_pos hc]; exact ih (keysNodup_aset _ _ h)
    · rw [if_neg hc]; exact ih h

/-! ## Topic-router lemmas -/

theorem findAfterBin_cons_cons (p q : String) (rest : List String) :
    findAfterBin (p :: q :: rest) = if p = "bin" then q else findAfterBin (q :: rest) := rfl

theorem findAfterBin_of_not_mem {l : List String} (h : "bin" ∉ l) : findAfterBin l = "" := by
  induction l with
  | nil => rfl
  | cons p rest ih =>
    simp only [List.mem_cons] at h
    push_neg at h
    cases rest with
    | nil => rfl
    | cons q rest2 =>
      rw [findAfterBin_cons_cons, if_neg (fun hp => h.1 hp.symm)]
      exact ih h.2

theorem findAfterBin_first {l1 : List String} (x : String) (l2 : List String)
    (h : "bin" ∉ l1) : findAfterBin (l1 ++ "bin" :: x :: l2) = x := by
  induction l1 with
  | nil => simp [findAfterBin_cons_cons]
  | cons a l1 ih =>
    simp only [List.mem_cons] at h
    push_neg at h
    rw [List.cons_append]
    cases hl : l1 ++ "bin" :: x :: l2 with
    | nil => exact absurd hl (by simp)
    | cons b t =>
      rw [findAfterBin_cons_cons, if_neg (fun ha => h.1 ha.symm), ← hl]
      exact ih h.2

theorem findAfterBin_last {l1 : List String} (h : "bin" ∉ l1) :
    findAfterBin (l1 ++ ["bin"]) = "" := by
  induction l1 with
  | nil => rfl
  | cons a l1 ih =>
    simp only [List.mem_cons] at h
    push_neg at h
    rw [List.cons_append]
    cases hl : l1 ++ ["bin"] with
    | nil => exact absurd hl (by simp)
    | cons b t =>
      rw [findAfterBin_cons_cons, if_neg (fun ha => h.1 ha.symm), ← hl]
      exact ih h.2

/-! ## Credential-store lemmas -/

theorem hasCredentials_stored_false_iff (m : CredMap) (T : String) :
    HasCredentials (.stored m) T = false ↔ aget m (normalizeSpaceKey T) = none := by
  cases hg : aget m (normalizeSpaceKey T) <;>
    simp [HasCredentials, GetCredentials, loadAllCredentials, hg]

theorem save_get_roundtrip {fs : FileState} {T : String} {B : JiraCredentials}
    {fs2 : FileState} (h : SaveCredentials fs T B = .ok fs2) :
    GetCredentials fs2 T = .ok B := by
  cases fs with
  | missing =>
    simp [SaveCredentials, loadAllCredentials] at h
    subst h
    simp [GetCredentials, loadAllCredentials, aget_aset_self]
  | unreadable => simp [SaveCredentials, loadAllCredentials] at h
  | corrupt => simp [SaveCredentials, loadAllCredentials] at h
  | stored m =>
    simp [SaveCredentials, loadAllCredentials] at h
    subst h
    simp [GetCredentials, loadAllCredentials, aget_aset_self]

theorem hasCredentials_of_save {fs : FileState} {T : String} {B : JiraCredentials}
    {fs2 : FileState} (h : SaveCredentials fs T B = .ok fs2) :
    HasCredentials fs2 T = true := by
  simp [HasCredentials, save_get_roundtrip h]

theorem hasCredentials_save_step {fs fs2 : FileState} {T k : String} {B : JiraCredentials}
    (hne : normalizeSpaceKey k ≠ normalizeSpaceKey T)
    (hfalse : HasCredentials fs T = false)
    (h : SaveCredentials fs k B = .ok fs2) : HasCredentials fs2 T = false := by
  cases fs with
  | missing =>
    simp [SaveCredentials, loadAllCredentials] at h
    subst h
    rw [hasCredentials_stored_false_iff, aget_aset_other _ _ _ _ (Ne.symm hne)]
    rfl
  | unreadable => simp [SaveCredentials, loadAllCredentials] at h
  | corrupt => simp [SaveCredentials, loadAllCredentials] at h
  | stored m =>
    simp [SaveCredentials, loadAllCredentials] at h
    subst h
    rw [hasCredentials_stored_false_iff, aget_aset_other _ _ _ _ (Ne.symm hne)]
    rw [hasCredentials_stored_false_iff] at hfalse
    exact hfalse

theorem runSaves_foldl_false {T : String} :
    ∀ (ops : List (String × JiraCredentials)) (start : FileState),
      (∀ p ∈ ops, normalizeSpaceKey p.1 ≠ normalizeSpaceKey T) →
      HasCredentials start T = false →
      HasCredentials
        (ops.foldl
          (fun fs op =>
            match SaveCredentials fs op.1 op.2 with
            | .ok fs2 => fs2
            | .error _ => fs)
          start) T = false := by
  intro ops
  induction ops with
  | nil => intro start _ h2; exact h2
  | cons p rest ih =>
    intro start h1 h2
    rw [List.foldl_cons]
    apply ih _ (fun q hq => h1 q (List.mem_cons_of_mem _ hq))
    cases hs : SaveCredentials start p.1 p.2 with
    | ok fs2 =>
      exact hasCredentials_save_step (h1 p (List.mem_cons_self _ _)) h2 hs
    | error e => exact h2

/-! ## Dispatch lemmas -/

theorem isMalformed_eq_true {data : MsgData} :
    data.isMalformed = true ↔ data = .malformed := by
  cases data <;> simp [MsgData.isMalformed]

theorem hasCredentials_true_iff {fs : FileState} {T : String} :
    HasCredentials fs T = true ↔ ∃ c, GetCredentials fs T = .ok c := by
  cases hg : GetCredentials fs T <;> simp [HasCredentials, hg]

theorem handshakeOrder_reject (p : JMap) (jobID sp : String) :
    (∀ n, (([Event.reject p] : List Event).get? n = some .execute ∨
        (∃ r, ([Event.reject p] : List Event).get? n = some (.publishDone jobID r))) →
      Event.respond (ackReply jobID) ∈ ([Event.reject p] : List Event).take n ∧
      Event.storeJob jobID sp ∈ ([Event.reject p] : List Event).take n) ∧
    (∀ n j r, ([Event.reject p] : List Event).get? n = some (.publishDone j r) → j = jobID) := by
  constructor
  · intro n hn
    rcases n with _ | n <;> simp [List.get?] at hn
  · intro n j r hn
    rcases n with _ | n <;> simp [List.get?] at hn

theorem handshakeOrder_full (sp jobID : String) (res : JMap) :
    (∀ n, (([Event.storeJob jobID sp, Event.respond (ackReply jobID), Event.sleep,
          Event.execute, Event.publishDone jobID res] : List Event).get? n = some .execute ∨
        (∃ r, ([Event.storeJob jobID sp, Event.respond (ackReply jobID), Event.sleep,
          Event.execute, Event.publishDone jobID res] : List Event).get? n =
            some (.publishDone jobID r))) →
      Event.respond (ackReply jobID) ∈
        ([Event.storeJob jobID sp, Event.respond (ackReply jobID), Event.sleep,
          Event.execute, Event.publishDone jobID res] : List Event).take n ∧
      Event.storeJob jobID sp ∈
        ([Event.storeJob jobID sp, Event.respond (ackReply jobID), Event.sleep,
          Event.execute, Event.publishDone jobID res] : List Event).take n) ∧
    (∀ n j r, ([Event.storeJob jobID sp, Event.respond (ackReply jobID), Event.sleep,
          Event.execute, Event.publishDone jobID res] : List Event).get? n =
        some (.publishDone j r) → j = jobID) := by
  constructor
  · intro n hn
    rcases n with _ | _ | _ | _ | _ | n
    · simp [List.get?] at hn
    · simp [List.get?] at hn
    · simp [List.get?] at hn
    · simp [List.take]
    · simp [List.take]
    · simp [List.get?] at hn
  · intro n j r hn
    rcases n with _ | _ | _ | _ | _ | n
    · simp [List.get?] at hn
    · simp [List.get?] at hn
    · simp [List.get?] at hn
    · simp [List.get?] at hn
    · simp [List.get?] at hn
      exact hn.1.symm
    · simp [List.get?] at hn

/-! ## Concrete fixtures used by witnesses and counterexamples -/

/-- A concrete credential bundle (the onboarding scenario of the spec). -/
def sampleCreds : JiraCredentials :=
  { instanceUrl := "https://x.atlassian.net", email := "a@b.com", apiToken := "tok" }

/-- The raw HTTP 400 error body of claim C5. -/
def rawBody400 : String :=
  "\x7b\"errorMessages\":[\"bad\"],\"errors\":\x7b\"summary\":\"required\"\x7d\x7d"

/-- The result of sonic.Unmarshal of rawBody400 into the jiraError struct:
one error message, one field error. -/
def parsedBody400 : JiraErrorBody :=
  { errorMessages := ["bad"], errors := [("summary", "required")] }

/-! ## Claims -/

/-- Claim C1 (amended).  For every inbound action request whose tenant has no
stored credentials, neither dispatcher variant ever invokes the business
function (the API Adapter is reachable only from inside it), and whenever
the payload is not malformed the single reply is exactly the
credentials-not-configured error payload, which carries the tenant id under
spaceId and the action name under action.  A malformed payload is instead
answered with the invalid-request payload before the credential check is
reached (see the counterexample), still without invoking the business
function. -/
theorem c1_unconfigured_tenant_reply (fs : FileState) (subject : String) (data : MsgData)
    (actionName jobID : String) (actionFunc : JiraCredentials → JMap → JMap)
    (h : HasCredentials fs (extractSpaceIdFromSubject subject) = false) :
    (Event.execute ∉ dispatchSync fs subject data actionName actionFunc) ∧
    (Event.execute ∉ dispatchHandshake fs subject data actionName jobID actionFunc) ∧
    (data.isMalformed = false →
      dispatchSync fs subject data actionName actionFunc =
        [.respond (credsNotConfiguredReply actionName (extractSpaceIdFromSubject subject))] ∧
      dispatchHandshake fs subject data actionName jobID actionFunc =
        [.reject (credsNotConfiguredReply actionName (extractSpaceIdFromSubject subject))]) ∧
    aget (credsNotConfiguredReply actionName (extractSpaceIdFromSubject subject)) "spaceId"
      = some (.str (extractSpaceIdFromSubject subject)) ∧
    aget (credsNotConfiguredReply actionName (extractSpaceIdFromSubject subject)) "action"
      = some (.str actionName) := by
  refine ⟨?_, ?_, ?_, ?_, ?_⟩
  · by_cases hm : data.isMalformed
    · simp [dispatchSync, hm]
    · rw [Bool.not_eq_true] at hm
      simp [dispatchSync, hm, h]
  · by_cases hm : data.isMalformed
    · simp [dispatchHandshake, hm]
    · rw [Bool.not_eq_true] at hm
      simp [dispatchHandshake, hm, h]
  · intro hm
    exact ⟨by simp [dispatchSync, hm, h], by simp [dispatchHandshake, hm, h]⟩
  · simp [credsNotConfiguredReply, aget]
  · simp [credsNotConfiguredReply, aget]

/-- Claim C1 witness: unconfigured tenant S1, well-formed empty body. -/
theorem c1_unconfigured_tenant_reply_witness :
    dispatchSync .missing "soren.cpu.bin.S1.pid.issues.create" (.withBody none)
        "issues.create" (fun _ _ => []) =
      [.respond (credsNotConfiguredReply "issues.create" "S1")] ∧
    Event.execute ∉ dispatchSync .missing "soren.cpu.bin.S1.pid.issues.create"
        (.withBody none) "issues.create" (fun _ _ => []) := by
  have h := c1_unconfigured_tenant_reply .missing "soren.cpu.bin.S1.pid.issues.create"
    (.withBody none) "issues.create" "J1" (fun _ _ => []) (by rfl)
  exact ⟨(h.2.2.1 (by rfl)).1, h.1⟩

/-- Claim C1 counterexample: a malformed payload from the unconfigured
tenant S1 is answered with the invalid-request payload, whose error tag is
not credentials_not_configured; so the claim as stated (EVERY request of an
unconfigured tenant is answered with the credentials-not-configured payload)
fails at this input. -/
theorem c1_malformed_counterexample :
    HasCredentials .missing "S1" = false ∧
    dispatchSync .missing "soren.cpu.bin.S1.pid.issues.create" .malformed "issues.create"
        (fun _ _ => []) = [.respond invalidRequestReplySync] ∧
    aget invalidRequestReplySync "error" = some (.str "Invalid request data") ∧
    "Invalid request data" ≠ "credentials_not_configured" := by
  refine ⟨rfl, rfl, rfl, ?_⟩
  simp

/-- Claim C2.  Handshake protocol ordering: wherever the event trace of the
handshake dispatcher contains the business-function invocation or a
completion-event publication (at position n), the acknowledgment reply
(jobId, progress 0) and the job-to-tenant association recording both occur
at strictly earlier positions (they are members of the first n events);
every completion event is published under the generated job handle; and
whenever the payload decodes and the tenant has credentials, the trace is
exactly store-ack-sleep-execute-publish, for every business function
(hence regardless of its outcome or duration). -/
theorem c2_handshake_ack_before_completion (fs : FileState) (subject : String)
    (data : MsgData) (actionName jobID : String)
    (actionFunc : JiraCredentials → JMap → JMap) :
    (∀ n, ((dispatchHandshake fs subject data actionName jobID actionFunc).get? n =
          some .execute ∨
        (∃ r, (dispatchHandshake fs subject data actionName jobID actionFunc).get? n =
          some (.publishDone jobID r))) →
      Event.respond (ackReply jobID) ∈
        (dispatchHandshake fs subject data actionName jobID actionFunc).take n ∧
      Event.storeJob jobID (extractSpaceIdFromSubject subject) ∈
        (dispatchHandshake fs subject data actionName jobID actionFunc).take n) ∧
    (∀ n j r, (dispatchHandshake fs subject data actionName jobID actionFunc).get? n =
        some (.publishDone j r) → j = jobID) ∧
    (data.isMalformed = false →
      HasCredentials fs (extractSpaceIdFromSubject subject) = true →
      ∃ creds, GetCredentials fs (extractSpaceIdFromSubject subject) = .ok creds ∧
        dispatchHandshake fs subject data actionName jobID actionFunc =
          [.storeJob jobID (extractSpaceIdFromSubject subject),
           .respond (ackReply jobID), .sleep, .execute,
           .publishDone jobID (actionFunc creds (bodyOf data))]) := by
  by_cases hm : data.isMalformed
  · have ht : dispatchHandshake fs subject data actionName jobID actionFunc =
        [.reject invalidRequestReplyHandshake] := by simp [dispatchHandshake, hm]
    rw [ht]
    refine ⟨(handshakeOrder_reject _ jobID (extractSpaceIdFromSubject subject)).1, (handshakeOrder_reject _ jobID (extractSpaceIdFromSubject subject)).2, ?_⟩
    intro hf
    rw [hm] at hf
    cases hf
  · rw [Bool.not_eq_true] at hm
    by_cases hhc : HasCredentials fs (extractSpaceIdFromSubject subject)
    · obtain ⟨creds, hg⟩ := hasCredentials_true_iff.mp hhc
      have ht : dispatchHandshake fs subject data actionName jobID actionFunc =
          [.storeJob jobID (extractSpaceIdFromSubject subject),
           .respond (ackReply jobID), .sleep, .execute,
           .publishDone jobID (actionFunc creds (bodyOf data))] := by
        simp [dispatchHandshake, hm, hhc, hg]
      rw [ht]
      exact ⟨(handshakeOrder_full _ _ _).1, (handshakeOrder_full _ _ _).2,
        fun _ _ => ⟨creds, hg, rfl⟩⟩
    · rw [Bool.not_eq_true] at hhc
      have ht : dispatchHandshake fs subject data actionName jobID actionFunc =
          [.reject (credsNotConfiguredReply actionName (extractSpaceIdFromSubject subject))] := by
        simp [dispatchHandshake, hm, hhc]
      rw [ht]
      refine ⟨(handshakeOrder_reject _ jobID (extractSpaceIdFromSubject subject)).1, (handshakeOrder_reject _ jobID (extractSpaceIdFromSubject subject)).2, ?_⟩
      intro _ htrue
      rw [htrue] at hhc
      cases hhc

/-- Claim C2 witness: a configured tenant; the trace holds execute at
position 3, and both the ack reply and the association recording are among
the first three events. -/
theorem c2_handshake_witness :
    Event.respond (ackReply "J1") ∈
      (dispatchHandshake (.stored [("S1", sampleCreds)]) "soren.cpu.bin.S1.pid.projects.list"
        (.withBody none) "projects.list" "J1" (fun _ _ => [])).take 3 ∧
    Event.storeJob "J1" "S1" ∈
      (dispatchHandshake (.stored [("S1", sampleCreds)]) "soren.cpu.bin.S1.pid.projects.list"
        (.withBody none) "projects.list" "J1" (fun _ _ => [])).take 3 :=
  (c2_handshake_ack_before_completion (.stored [("S1", sampleCreds)])
    "soren.cpu.bin.S1.pid.projects.list" (.withBody none) "projects.list" "J1"
    (fun _ _ => [])).1 3 (Or.inl rfl)

/-- Claim C3.  If SaveCredentials succeeds for tenant key T then an
immediately following GetCredentials for T returns exactly the saved
bundle; and both operations treat the empty tenant key exactly as the
reserved key default. -/
theorem c3_save_then_get (fs : FileState) (T : String) (B : JiraCredentials)
    (fs2 : FileState) (h : SaveCredentials fs T B = .ok fs2) :
    GetCredentials fs2 T = .ok B ∧
    (∀ g : FileState, SaveCredentials g "" B = SaveCredentials g "default" B) ∧
    (∀ g : FileState, GetCredentials g "" = GetCredentials g "default") := by
  refine ⟨save_get_roundtrip h, fun g => ?_, fun g => ?_⟩
  · simp [SaveCredentials, normalizeSpaceKey]
  · simp [GetCredentials, normalizeSpaceKey]

/-- Claim C3 witness: saving under the empty tenant key on a fresh store and
reading it back returns the bundle (it is stored under default). -/
theorem c3_save_then_get_witness :
    GetCredentials (.stored [("default", sampleCreds)]) "" = .ok sampleCreds :=
  (c3_save_then_get .missing "" sampleCreds (.stored [("default", sampleCreds)]) (by rfl)).1

/-- Claim C4 (amended).  GetAllSpaces returns every tenant key present in
the store (membership in its first component coincides with presence of a
binding), and on a fresh or missing store file it returns an empty
sequence — but the Go function returns that empty slice TOGETHER WITH the
underlying load error, so the not-found condition IS propagated to the
caller (see the counterexample); the same holds for an unreadable or
corrupt store. -/
theorem c4_list_tenants :
    (∀ (m : CredMap) (k : String),
      k ∈ (GetAllSpaces (.stored m)).1 ↔ aget m k ≠ none) ∧
    (∀ m : CredMap, (GetAllSpaces (.stored m)).2 = none) ∧
    GetAllSpaces .missing = ([], some .notExist) ∧
    GetAllSpaces .unreadable = ([], some .readErr) ∧
    GetAllSpaces .corrupt = ([], some .parseErr) := by
  refine ⟨fun m k => (aget_ne_none_iff m k).symm, fun m => rfl, rfl, rfl, rfl⟩

/-- Claim C4 counterexample: on the missing store file, GetAllSpaces returns
the empty key list paired with the not-exist load error — a non-nil error
returned to the caller — refuting the claim that no not-found condition is
ever propagated by this call. -/
theorem c4_missing_store_counterexample :
    GetAllSpaces .missing = ([], some .notExist) ∧
    (GetAllSpaces .missing).2 ≠ (none : Option LoadErr) := by
  exact ⟨rfl, by decide⟩

/-- Claim C5 (amended).  For the HTTP 400 error body of the claim, the
create, delete and comment operations parse the structured body and join
its parts, so their messages contain both the substring bad and the
substring summary: required (the create message is computed in full); the
list operation, however, never attempts to parse the structured error body
and always uses the raw body, so its message contains bad (inside the raw
JSON) but not summary: required. -/
theorem c5_adapter_error_messages :
    createIssueErrorMessage 400 rawBody400 (some parsedBody400) =
      "Jira API error (status 400): bad. Missing or invalid fields: summary: required" ∧
    containsSubstr (createIssueErrorMessage 400 rawBody400 (some parsedBody400))
      "bad" = true ∧
    containsSubstr (createIssueErrorMessage 400 rawBody400 (some parsedBody400))
      "summary: required" = true ∧
    containsSubstr (deleteIssueErrorMessage 400 rawBody400 (some parsedBody400))
      "bad" = true ∧
    containsSubstr (deleteIssueErrorMessage 400 rawBody400 (some parsedBody400))
      "summary: required" = true ∧
    containsSubstr (addCommentErrorMessage 400 rawBody400 (some parsedBody400))
      "bad" = true ∧
    containsSubstr (addCommentErrorMessage 400 rawBody400 (some parsedBody400))
      "summary: required" = true ∧
    containsSubstr (listProjectsErrorMessage 400 rawBody400) "bad" = true ∧
    containsSubstr (listProjectsErrorMessage 400 rawBody400) "summary: required" = false := by
  refine ⟨by decide, by decide, by decide, by decide, by decide, by decide, by decide,
    by decide, by decide⟩

/-- Claim C5 counterexample: the list operation (ListProjects) uses the raw
response body for every non-200 status — it never parses the structured
error body — so at the very input of the claim its message lacks the
substring summary: required, refuting the claim for the list operation. -/
theorem c5_list_raw_counterexample :
    listProjectsErrorMessage 400 rawBody400 =
      "Jira API error (status 400): " ++ rawBody400 ∧
    containsSubstr (listProjectsErrorMessage 400 rawBody400) "summary: required" = false := by
  refine ⟨by decide, by decide⟩

/-- Claim C6.  The topic router is a total Lean function; on every
dot-separated topic it returns the segment immediately following the first
occurrence of the marker segment bin, and the empty string when the marker
is absent or is the last segment; in particular the three concrete examples
of the claim evaluate as stated. -/
theorem c6_extract_space_id :
    extractSpaceIdFromSubject "a.bin.T.rest" = "T" ∧
    extractSpaceIdFromSubject "a.b.c" = "" ∧
    extractSpaceIdFromSubject "x.bin" = "" ∧
    (∀ s : String, "bin" ∉ splitSubject s → extractSpaceIdFromSubject s = "") ∧
    (∀ (s : String) (l1 : List String) (x : String) (l2 : List String),
      splitSubject s = l1 ++ "bin" :: x :: l2 → "bin" ∉ l1 →
      extractSpaceIdFromSubject s = x) ∧
    (∀ (s : String) (l1 : List String),
      splitSubject s = l1 ++ ["bin"] → "bin" ∉ l1 →
      extractSpaceIdFromSubject s = "") := by
  refine ⟨by decide, by decide, by decide, fun s h => ?_, fun s l1 x l2 hs h => ?_,
    fun s l1 hs h => ?_⟩
  · exact findAfterBin_of_not_mem h
  · show findAfterBin (splitSubject s) = x
    rw [hs]
    exact findAfterBin_first x l2 h
  · show findAfterBin (splitSubject s) = ""
    rw [hs]
    exact findAfterBin_last h

/-- Claim C6 witness: the production subject shape, settled through the
first-occurrence clause of the theorem. -/
theorem c6_extract_space_id_witness :
    extractSpaceIdFromSubject "soren.cpu.bin.S1.pid.projects.list" = "S1" :=
  c6_extract_space_id.2.2.2.2.1 "soren.cpu.bin.S1.pid.projects.list" ["soren", "cpu"]
    "S1" ["pid", "projects", "list"] (by decide) (by decide)

/-- Claim C7.  HasCredentials is false for every tenant key never saved
(over any history of saves from a fresh store whose keys all differ from
the queried key after normalization), false on a missing, unreadable or
corrupt store (every GetCredentials error is suppressed into false), and
true immediately after any successful SaveCredentials for that key. -/
theorem c7_exists_semantics :
    (∀ (ops : List (String × JiraCredentials)) (T : String),
      (∀ p ∈ ops, normalizeSpaceKey p.1 ≠ normalizeSpaceKey T) →
      HasCredentials (runSaves ops) T = false) ∧
    (∀ T : String, HasCredentials .missing T = false ∧
      HasCredentials .unreadable T = false ∧ HasCredentials .corrupt T = false) ∧
    (∀ (fs : FileState) (T : String) (B : JiraCredentials) (fs2 : FileState),
      SaveCredentials fs T B = .ok fs2 → HasCredentials fs2 T = true) := by
  refine ⟨fun ops T h => ?_, fun T => ⟨rfl, rfl, rfl⟩,
    fun fs T B fs2 h => hasCredentials_of_save h⟩
  exact runSaves_foldl_false ops .missing h rfl

/-- Claim C7 witness: after saving only under key a, the key b has no
credentials; after a successful save under a, a has credentials. -/
theorem c7_exists_semantics_witness :
    HasCredentials (runSaves [("a", sampleCreds)]) "b" = false ∧
    HasCredentials (.stored [("a", sampleCreds)]) "a" = true :=
  ⟨c7_exists_semantics.1 [("a", sampleCreds)] "b" (by decide),
   c7_exists_semantics.2.2 (.stored []) "a" sampleCreds (.stored [("a", sampleCreds)])
     (by rfl)⟩

/-- Claim C8 (amended).  For every issues.create body whose summary field is
missing (or empty, or not a string) while projectKey and issueType are
present and non-empty, the business function returns the result mapping
(error validation_error, message Summary is required) and never reaches the
remote call; when projectKey or issueType is also missing, an earlier check
fires and the message names that field instead (see the counterexample and
claim C10). -/
theorem c8_missing_summary (body : JMap)
    (h1 : getString body "projectKey" ≠ "") (h2 : getString body "issueType" ≠ "")
    (h3 : getString body "summary" = "") :
    createIssueAction body = .reply (validationError "Summary is required") ∧
    ∀ fields, createIssueAction body ≠ .callApi fields := by
  have ht : createIssueAction body = .reply (validationError "Summary is required") := by
    simp only [createIssueAction]
    rw [if_neg h1, if_neg h2, if_pos h3]
  refine ⟨ht, fun fields hc => ?_⟩
  rw [ht] at hc
  cases hc

/-- Claim C8 witness: body with projectKey and issueType but no summary. -/
theorem c8_missing_summary_witness :
    createIssueAction [("projectKey", JValue.str "P"), ("issueType", JValue.str "Task")] =
      .reply (validationError "Summary is required") :=
  (c8_missing_summary [("projectKey", JValue.str "P"), ("issueType", JValue.str "Task")]
    (by decide) (by decide) (by decide)).1

/-- Claim C8 counterexample: the empty body is missing the summary field,
yet the returned message is Project key is required, not Summary is
required — the projectKey check fires first — refuting the claim as stated
(which quantifies over EVERY body missing summary). -/
theorem c8_empty_body_counterexample :
    createIssueAction [] = .reply (validationError "Project key is required") ∧
    getString ([] : JMap) "summary" = "" ∧
    "Project key is required" ≠ "Summary is required" := by
  refine ⟨rfl, rfl, by simp⟩

/-- Claim C9.  In both the issues.create and issues.comment business
functions, every top-level body field whose key is none of the known field
names and whose value is neither null nor the empty string is merged into
additionalFields and forwarded into the remote request (the fields object
of the create request, the request body of the comment request), provided
the body and the explicit additionalFields object are duplicate-key-free
(always true of decoded JSON). -/
theorem c9_extra_fields_forwarded :
    (∀ (body : JMap) (k : String) (v : JValue) (fields : JMap),
      keysNodup body → keysNodup (getObjFields body "additionalFields") →
      createKnownFields.contains k = false → aget body k = some v → jvalKeep v = true →
      createIssueAction body = .callApi fields → aget fields k = some v) ∧
    (∀ (body : JMap) (k : String) (v : JValue) (issueKey : String) (rb : JMap),
      keysNodup body → keysNodup (getObjFields body "additionalFields") →
      commentKnownFields.contains k = false → aget body k = some v → jvalKeep v = true →
      addCommentAction body = .callApi issueKey rb → aget rb k = some v) := by
  constructor
  · intro body k v fields hnb hna hkn hbv hkeep hca
    have haf : aget (mergeExtras body createKnownFields
        (getObjFields body "additionalFields")) k = some v :=
      aget_condSet_of_mem _ _ hnb (aget_mem hbv)
        (by show (!createKnownFields.contains k && jvalKeep v) = true
            rw [hkn, hkeep]
            rfl)
    have hnaf : keysNodup (mergeExtras body createKnownFields
        (getObjFields body "additionalFields")) :=
      keysNodup_condSet _ _ hna
    simp only [createIssueAction] at hca
    by_cases h1 : getString body "projectKey" = ""
    · rw [if_pos h1] at hca; cases hca
    · rw [if_neg h1] at hca
      by_cases h2 : getString body "issueType" = ""
      · rw [if_pos h2] at hca; cases hca
      · rw [if_neg h2] at hca
        by_cases h3 : getString body "summary" = ""
        · rw [if_pos h3] at hca; cases hca
        · rw [if_neg h3] at hca
          injection hca with hf
          rw [← hf]
          exact aget_condSet_of_mem _ _ hnaf (aget_mem haf) hkeep
  · intro body k v issueKey rb hnb hna hkn hbv hkeep hca
    have haf : aget (mergeExtras body commentKnownFields
        (getObjFields body "additionalFields")) k = some v :=
      aget_condSet_of_mem _ _ hnb (aget_mem hbv)
        (by show (!commentKnownFields.contains k && jvalKeep v) = true
            rw [hkn, hkeep]
            rfl)
    have hnaf : keysNodup (mergeExtras body commentKnownFields
        (getObjFields body "additionalFields")) :=
      keysNodup_condSet _ _ hna
    simp only [addCommentAction] at hca
    by_cases h1 : getString body "issueKey" = ""
    · rw [if_pos h1] at hca; cases hca
    · rw [if_neg h1] at hca
      by_cases h2 : getString body "commentBody" = ""
      · rw [if_pos h2] at hca; cases hca
      · rw [if_neg h2] at hca
        injection hca with hik hrb
        rw [← hrb]
        exact aget_condSet_of_mem _ _ hnaf (aget_mem haf) hkeep

/-- Claim C9 witness: a top-level duedate field on a valid create body lands
in the fields object of the remote request. -/
theorem c9_extra_fields_forwarded_witness :
    aget (createIssueFields "P" "Task" "s" ""
      (mergeExtras
        [("projectKey", JValue.str "P"), ("issueType", JValue.str "Task"),
         ("summary", JValue.str "s"), ("duedate", JValue.str "2024-12-31")]
        createKnownFields [])) "duedate" = some (JValue.str "2024-12-31") :=
  c9_extra_fields_forwarded.1
    [("projectKey", JValue.str "P"), ("issueType", JValue.str "Task"),
     ("summary", JValue.str "s"), ("duedate", JValue.str "2024-12-31")]
    "duedate" (JValue.str "2024-12-31") _
    (by simp [keysNodup]) (by simp [keysNodup, getObjFields, aget])
    (by decide) (by rfl) (by rfl) (by rfl)

/-- Claim C10.  The issues.create business function validates projectKey,
then issueType, then summary, in that fixed order: whenever projectKey is
missing the message names the project key regardless of the other fields;
issueType is only reported once projectKey is present; summary only once
both are present. -/
theorem c10_validation_order (body : JMap) :
    (getString body "projectKey" = "" →
      createIssueAction body = .reply (validationError "Project key is required")) ∧
    (getString body "projectKey" ≠ "" → getString body "issueType" = "" →
      createIssueAction body = .reply (validationError "Issue type is required")) ∧
    (getString body "projectKey" ≠ "" → getString body "issueType" ≠ "" →
      getString body "summary" = "" →
      createIssueAction body = .reply (validationError "Summary is required")) := by
  refine ⟨fun h1 => ?_, fun h1 h2 => ?_, fun h1 h2 h3 => ?_⟩
  · simp only [createIssueAction]
    rw [if_pos h1]
  · simp only [createIssueAction]
    rw [if_neg h1, if_pos h2]
  · simp only [createIssueAction]
    rw [if_neg h1, if_neg h2, if_pos h3]

/-- Claim C10 witness: a body missing both projectKey and summary (only
issueType present) is answered with Project key is required. -/
theorem c10_validation_order_witness :
    createIssueAction [("issueType", JValue.str "Task")] =
      .reply (validationError "Project key is required") :=
  (c10_validation_order [("issueType", JValue.str "Task")]).1 (by rfl)
